import Mathlib

/-!
Shallow embedding of the pq-peak parquet browser (src/sql_editor.rs,
src/table.rs, src/utils.rs, src/errors.rs).

The on-disk parquet file is modelled as a `Source`: its schema (column
names) and the full ordered list of rows, each row a list of textual
cells (the program converts every cell to a `String` via `batch_to_rows`).
The parquet reader built with `with_batch_size(bs)` yields the rows in
consecutive chunks of `bs`; `skip(i).next()` yields chunk `i` when it
exists.  File contents are assumed stable across the repeated re-opens the
program performs, so re-reading is modelled by reading the `src` field
again.
-/

namespace PqPeak

/-- Decoded contents of the parquet file: schema and all rows as text. -/
structure Source where
  header : List String
  rows : List (List String)
deriving DecidableEq

/-- An Arrow record batch as the program sees it after `batch_to_rows`:
its schema's field names and its rows rendered as text. -/
structure RecordBatch where
  header : List String
  rows : List (List String)
deriving DecidableEq

/-- `ExecutionState` from src/sql_editor.rs lines 27-32. -/
inductive ExecutionState where
  | idle
  | executing
  | success
  | error (msg : String)
deriving DecidableEq

/-- `FocusedPane` from src/sql_editor.rs lines 21-25. -/
inductive FocusedPane where
  | sqlEditor
  | tablePreview
  | saveDialog
deriving DecidableEq

/-- `VISIBLE_COLS` from src/sql_editor.rs line 17. -/
def VISIBLE_COLS : Nat := 10

/-- `MAX_PREVIEW_ROWS` from src/sql_editor.rs line 18. -/
def MAX_PREVIEW_ROWS : Nat := 1000

/-- `DEFAULT_SQL` from src/sql_editor.rs line 19. -/
def DEFAULT_SQL : String := "SELECT * FROM data LIMIT 100"

/-- The `App` struct from src/sql_editor.rs lines 34-53.  `file_path` is
replaced by `src`, the (stable) decoded contents of the file it points to;
`sql_textarea` and `save_dialog` by their text contents; `table_state` by
its selected row index (`TableState::default().with_selected(0)` selects
row 0; `select(Some(0))` resets it to 0). -/
structure App where
  src : Source
  batch_size : Nat
  sql_text : String
  save_dialog_text : String
  focused_pane : FocusedPane
  execution_state : ExecutionState
  show_save_dialog : Bool
  selected_row : Nat
  current_batch_idx : Nat
  current_rows : List (List String)
  header : List String
  col_offset : Nat
  total_batches : Nat
  total_rows : Nat
  is_filtered : Bool
deriving DecidableEq

/-- Rows of batch `i` of a reader over `rows` with batch size `bs`:
the reader yields the rows in consecutive chunks of `bs`. -/
def batchRows (rows : List (List String)) (bs i : Nat) : List (List String) :=
  (rows.drop (bs * i)).take bs

/-- The batch count computed by `App::new` and `App::load_original_data`:
`(total_rows + batch_size - 1) / batch_size` (src/sql_editor.rs lines 62
and 198, src/table.rs line 35). -/
def totalBatchesOf (total_rows batch_size : Nat) : Nat :=
  (total_rows + batch_size - 1) / batch_size

/-- `App::new` from src/sql_editor.rs lines 56-105 (src/table.rs lines
28-61 is the same construction minus the editor fields).  Takes the
already-decoded source; `reader.next()` returns no batch exactly when the
file holds no rows, in which case the constructor fails with
"No data in file". -/
def App.new (src : Source) (batch_size : Nat) : Except String App :=
  match src.rows with
  | [] => .error "No data in file"
  | _ :: _ =>
    .ok { src := src
          batch_size := batch_size
          sql_text := DEFAULT_SQL
          save_dialog_text := "output.parquet"
          focused_pane := .sqlEditor
          execution_state := .idle
          show_save_dialog := false
          selected_row := 0
          current_batch_idx := 0
          current_rows := batchRows src.rows batch_size 0
          header := src.header
          col_offset := 0
          total_batches := totalBatchesOf src.rows.length batch_size
          total_rows := src.rows.length
          is_filtered := false }

/-- Open a file and construct the session: decoding happens first
(`File::open(..)?` / `ParquetRecordBatchReaderBuilder::try_new(..)?`,
modelled by the `Except` argument), then `App::new` proper. -/
def openApp (decoded : Except String Source) (batch_size : Nat) :
    Except String App :=
  match decoded with
  | .error e => .error e
  | .ok src => App.new src batch_size

/-- `App::update_with_results` from src/sql_editor.rs lines 159-189. -/
def App.update_with_results (s : App) (batches : List RecordBatch) : App :=
  match batches with
  | [] => s
  | b0 :: _ =>
    let all_rows := (batches.map RecordBatch.rows).flatten
    { s with
      header := b0.header
      current_rows := all_rows
      current_batch_idx := 0
      total_rows := all_rows.length
      total_batches := 1
      col_offset := 0
      selected_row := 0
      is_filtered := true }

/-- `App::load_original_data` from src/sql_editor.rs lines 191-227:
re-reads the source, restores the raw first batch, clears the overlay,
resets viewport and status, and replaces the SQL editor text with
`DEFAULT_SQL`.  Fails (before mutating anything) when the source has no
rows. -/
def App.load_original_data (s : App) : Except String App :=
  match s.src.rows with
  | [] => .error "No data in file"
  | _ :: _ =>
    .ok { s with
          header := s.src.header
          current_rows := batchRows s.src.rows s.batch_size 0
          current_batch_idx := 0
          total_rows := s.src.rows.length
          total_batches := totalBatchesOf s.src.rows.length s.batch_size
          col_offset := 0
          selected_row := 0
          is_filtered := false
          execution_state := .idle
          sql_text := DEFAULT_SQL }

/-- `App::load_batch` from src/sql_editor.rs lines 229-249: a no-op when
an overlay is shown; otherwise re-opens the source and reads batch
`batch_idx` via `skip(batch_idx).next()`, which yields a batch exactly
when `batch_size * batch_idx` rows can be skipped with data remaining;
when it yields none, nothing is mutated. -/
def App.load_batch (s : App) (batch_idx : Nat) : App :=
  if s.is_filtered then s
  else if s.batch_size * batch_idx < s.src.rows.length then
    { s with
      current_rows := batchRows s.src.rows s.batch_size batch_idx
      current_batch_idx := batch_idx
      selected_row := 0 }
  else s

/-- `App::load_next_batch` from src/sql_editor.rs lines 251-257
(src/table.rs lines 84-90 is identical up to error reporting). -/
def App.load_next_batch (s : App) : App :=
  if s.current_batch_idx + 1 < s.total_batches then
    s.load_batch (s.current_batch_idx + 1)
  else s

/-- `App::load_previous_batch` from src/sql_editor.rs lines 259-265. -/
def App.load_previous_batch (s : App) : App :=
  if s.current_batch_idx > 0 then
    s.load_batch (s.current_batch_idx - 1)
  else s

/-- `App::scroll_left` from src/sql_editor.rs lines 319-323. -/
def App.scroll_left (s : App) : App :=
  if s.col_offset > 0 then { s with col_offset := s.col_offset - 1 } else s

/-- `App::scroll_right` from src/sql_editor.rs lines 325-334. -/
def App.scroll_right (s : App) : App :=
  match s.current_rows with
  | [] => s
  | r0 :: _ =>
    if s.col_offset + VISIBLE_COLS < r0.length then
      { s with col_offset := s.col_offset + 1 }
    else s

/-- Rust `str::contains(needle)`: substring containment over characters. -/
def hasSub (needle : List Char) : List Char → Bool
  | [] => needle.isEmpty
  | c :: cs => needle.isPrefixOf (c :: cs) || hasSub needle cs

/-- Rust `str::to_uppercase` (the queries involved are ASCII, where it
uppercases character by character). -/
def toUpperChars (cs : List Char) : List Char := cs.map Char.toUpper

/-- Rust `str::trim_start`: drop leading whitespace. -/
def trimStartChars (cs : List Char) : List Char :=
  cs.dropWhile Char.isWhitespace

/-- Rust `str::trim`: drop leading and trailing whitespace. -/
def trimChars (cs : List Char) : List Char :=
  ((cs.dropWhile Char.isWhitespace).reverse.dropWhile Char.isWhitespace).reverse

/-- Rust `str::parse::<usize>` on the decimal digit strings the program
produces. -/
def digitsToNat? (cs : List Char) : Option Nat :=
  if cs ≠ [] ∧ cs.all Char.isDigit then
    some (cs.foldl (fun n c => n * 10 + (c.toNat - 48)) 0)
  else none

/-- The implicit preview-cap policy of `App::execute_sql`, src/sql_editor.rs
lines 127-133: when the uppercased query text does not contain "LIMIT" and,
after leading-whitespace removal, begins with "SELECT",
` LIMIT {MAX_PREVIEW_ROWS}` is appended; otherwise the query is passed
through unchanged. -/
def sql_with_limit (sql : List Char) : List Char :=
  if ¬ hasSub "LIMIT".toList (toUpperChars sql)
      ∧ "SELECT".toList.isPrefixOf (trimStartChars (toUpperChars sql)) then
    sql ++ (" LIMIT ".toList ++ (Nat.repr MAX_PREVIEW_ROWS).toList)
  else sql

/-- Modelled from the spec: the Query Engine collaborator (spec sections 2
and 6) is external to this repository (DataFusion), so only the behavior
the preview-cap claim exercises is modelled: `SELECT * FROM data`
materializes every row of the registered source, and the same query with a
trailing ` LIMIT n` materializes at most the first `n` rows; other query
texts are out of scope (`none`). -/
def engine_exec (src : Source) (q : List Char) :
    Option (List (List String)) :=
  if q = "SELECT * FROM data".toList then some src.rows
  else if ("SELECT * FROM data LIMIT ".toList).isPrefixOf q then
    match digitsToNat? (q.drop 25) with
    | some n => some (src.rows.take n)
    | none => none
  else none

/-- Outcome of the external query engine for one `execute` call:
`ctx.sql` failure (parse/plan), `df.collect` failure (execution), or a
list of result batches. -/
inductive EngineResult where
  | parseError (msg : String)
  | execError (msg : String)
  | ok (batches : List RecordBatch)
deriving DecidableEq

/-- `App::execute_sql` from src/sql_editor.rs lines 107-157, composed with
the `run`-loop's handling of its `Result` (src/sql_editor.rs lines
429-435): the engine's outcome is passed in as `res` (the engine is an
external collaborator).  On `Ok` with an empty batch list the code first
sets the "Query returned no results" error and then calls
`load_original_data()?`; a failure of that reload propagates out of
`execute_sql` and is caught by the run loop, which records it as
`Error("Error: {e}")`. -/
def App.execute_sql (s : App) (res : EngineResult) : App :=
  let sql := trimChars s.sql_text.toList
  if sql.isEmpty then
    { s with execution_state := .error "SQL query is empty" }
  else
    match res with
    | .parseError e => { s with execution_state := .error ("SQL: " ++ e) }
    | .execError e =>
      { s with execution_state := .error ("Execution: " ++ e) }
    | .ok batches =>
      if batches.isEmpty then
        let s1 :=
          { s with execution_state := .error "Query returned no results" }
        match s1.load_original_data with
        | .ok s2 => s2
        | .error e =>
          { s1 with execution_state := .error ("Error: " ++ e) }
      else
        { s.update_with_results batches with execution_state := .success }

/-- Arrow column type as used by `App::save_results`: every exported
column is `DataType::Utf8`. -/
inductive ArrowType where
  | utf8
deriving DecidableEq

/-- The parquet file written by `App::save_results`: its schema (field
name and type per column) and its rows. -/
structure SavedFile where
  fields : List (String × ArrowType)
  rows : List (List String)
deriving DecidableEq

/-- `App::save_results` from src/sql_editor.rs lines 277-317: refuses
when no overlay is active; otherwise writes one record batch whose schema
has every header column typed `Utf8` and whose column `c` holds cell `c`
of each of `current_rows` in order (the Rust code indexes `row[col_idx]`;
rows produced by the program always have `header.length` cells, embedded
totally here with `getD`). -/
def App.save_results (s : App) : Except String SavedFile :=
  if ¬ s.is_filtered then
    .error "No SQL results to save. Execute a query first."
  else
    .ok { fields := s.header.map (fun n => (n, ArrowType.utf8))
          rows := s.current_rows.map
            (fun r => (List.range s.header.length).map (fun c => r.getD c "")) }

/-- The commands that mutate the session state, as dispatched by
`App::handle_key_event` / `App::run` (src/sql_editor.rs lines 336-441):
execute (Ctrl+E, with the engine's outcome), reset (Ctrl+R), batch
navigation (PgDn/PgUp), direct batch load, and column scrolling (←/→). -/
inductive Cmd where
  | exec (res : EngineResult)
  | reset
  | nextBatch
  | prevBatch
  | gotoBatch (i : Nat)
  | scrollLeft
  | scrollRight
deriving DecidableEq

/-- One command step.  `exec` first shows the `Executing` state (run loop,
src/sql_editor.rs line 426) and then runs `execute_sql`; `reset` calls
`load_original_data`, recording a failure as an `Error` status
(src/sql_editor.rs lines 353-358). -/
def App.step (s : App) : Cmd → App
  | .exec res => App.execute_sql { s with execution_state := .executing } res
  | .reset =>
    match s.load_original_data with
    | .ok s2 => s2
    | .error e => { s with execution_state := .error ("Error resetting: " ++ e) }
  | .nextBatch => s.load_next_batch
  | .prevBatch => s.load_previous_batch
  | .gotoBatch i => s.load_batch i
  | .scrollLeft => s.scroll_left
  | .scrollRight => s.scroll_right

/-- A session: the initial state followed by a sequence of commands. -/
def App.steps (s : App) (cs : List Cmd) : App :=
  cs.foldl App.step s

/-- The suffix of `cs` after its last `'.'`, or `none` when `cs` holds no
`'.'`. -/
def extAfterDot : List Char → Option (List Char)
  | [] => none
  | c :: cs =>
    match extAfterDot cs with
    | some e => some e
    | none => if c = '.' then some cs else none

/-- Rust `Path::extension` on a file name: the portion after the last
`'.'` of the name, where a `'.'` in first position does not count as a
separator (so ".pqt" has no extension); `none` when there is no such
`'.'`. -/
def pathExtension (fileName : String) : Option String :=
  match fileName.toList with
  | [] => none
  | _ :: cs => (extAfterDot cs).map fun l => String.mk l

/-- `validate_extension` from src/utils.rs lines 1-6: accepts when the
extension component equals "parquet" or equals ".pqt". -/
def validate_extension (fileName : String) : Bool :=
  match pathExtension fileName with
  | some ext => ext == "parquet" || ext == ".pqt"
  | none => false

/-- `ExecutionState::Error(_)` discriminator. -/
def ExecutionState.isError : ExecutionState → Bool
  | .error _ => true
  | _ => false

/-- A placeholder session used only to totalize fixture construction. -/
def App.dummy : App :=
  { src := ⟨[], []⟩
    batch_size := 0
    sql_text := ""
    save_dialog_text := ""
    focused_pane := .sqlEditor
    execution_state := .idle
    show_save_dialog := false
    selected_row := 0
    current_batch_idx := 0
    current_rows := []
    header := []
    col_offset := 0
    total_batches := 0
    total_rows := 0
    is_filtered := false }

/-- Concrete fixture: a 5-row, 1-column source. -/
def srcA : Source := ⟨["a"], [["1"], ["2"], ["3"], ["4"], ["5"]]⟩

/-- Session opened on `srcA` with batch size 2 (batches [0,1], [2,3], [4]). -/
def s0A : App :=
  match App.new srcA 2 with
  | .ok s => s
  | .error _ => App.dummy

/-- Concrete fixture: an 11-column, 2-row source (wide enough to scroll). -/
def srcW : Source :=
  ⟨["c0", "c1", "c2", "c3", "c4", "c5", "c6", "c7", "c8", "c9", "c10"],
   [["a0", "a1", "a2", "a3", "a4", "a5", "a6", "a7", "a8", "a9", "a10"],
    ["b0", "b1", "b2", "b3", "b4", "b5", "b6", "b7", "b8", "b9", "b10"]]⟩

/-- Session opened on `srcW` with batch size 1. -/
def s0W : App :=
  match App.new srcW 1 with
  | .ok s => s
  | .error _ => App.dummy

/-- `s0A` after paging to batch 1 (rows ["3"], ["4"]). -/
def s1A : App := s0A.steps [.nextBatch]

/-- A one-row query-result batch over `srcA`'s schema. -/
def rbA : RecordBatch := ⟨["a"], [["7"]]⟩

/-- `s0A` after a successful one-row query: an overlay is active. -/
def sFA : App := s0A.steps [.exec (.ok [rbA])]

/-- `s0A` after paging twice: the last batch (index 2) is shown. -/
def s2A : App := s0A.steps [.nextBatch, .nextBatch]

/-- The state produced by resetting `s1A` to the original data. -/
def s1AReset : App :=
  match s1A.load_original_data with
  | .ok s => s
  | .error _ => App.dummy

/-- Consistency invariant of a session state: the source is the non-empty
file the session was opened on, the batch size is positive, an overlay
always reports one batch at index 0, and in the raw view the batch count
and row count agree with the source while the batch index stays in
range. -/
def App.Inv (s : App) : Prop :=
  s.src.rows ≠ [] ∧
  1 ≤ s.batch_size ∧
  (s.is_filtered = true → s.total_batches = 1 ∧ s.current_batch_idx = 0) ∧
  (s.is_filtered = false →
    s.total_batches = totalBatchesOf s.src.rows.length s.batch_size ∧
    s.total_rows = s.src.rows.length ∧
    s.current_batch_idx < s.total_batches)

/-! ### Arithmetic facts about `totalBatchesOf` -/

theorem le_totalBatchesOf_mul (n bs : Nat) (hb : 0 < bs) :
    n ≤ totalBatchesOf n bs * bs := by
  rcases Nat.eq_zero_or_pos n with hn | hn
  · simp [hn]
  · have hd := Nat.div_add_mod (n + bs - 1) bs
    have hm : (n + bs - 1) % bs < bs := Nat.mod_lt _ hb
    unfold totalBatchesOf
    rw [Nat.mul_comm]
    generalize bs * ((n + bs - 1) / bs) = p at hd ⊢
    generalize (n + bs - 1) % bs = r at hd hm
    omega

theorem totalBatchesOf_le (n bs m : Nat) (hb : 0 < bs) (h : n ≤ m * bs) :
    totalBatchesOf n bs ≤ m := by
  unfold totalBatchesOf
  rw [Nat.div_le_iff_le_mul_add_pred hb]
  rw [Nat.mul_comm] at h
  generalize bs * m = p at h ⊢
  omega

theorem totalBatchesOf_pos (n bs : Nat) (hb : 0 < bs) (hn : 0 < n) :
    0 < totalBatchesOf n bs := by
  exact (Nat.one_le_div_iff hb).2 (by omega)

theorem mul_pred_totalBatchesOf_lt (n bs : Nat) (hb : 0 < bs) (hn : 0 < n) :
    bs * (totalBatchesOf n bs - 1) < n := by
  by_contra hcon
  push_neg at hcon
  have h1 : totalBatchesOf n bs ≤ totalBatchesOf n bs - 1 :=
    totalBatchesOf_le n bs _ hb (by rw [Nat.mul_comm] at hcon; exact hcon)
  have h2 := totalBatchesOf_pos n bs hb hn
  omega

theorem totalBatchesOf_eq_ceil (n bs : Nat) (hb : 0 < bs) :
    totalBatchesOf n bs = ⌈(n : ℚ) / (bs : ℚ)⌉₊ := by
  rcases Nat.eq_zero_or_pos n with hn | hn
  · subst hn
    simp [totalBatchesOf, Nat.div_eq_of_lt (by omega : bs - 1 < bs)]
  · symm
    have hq : 0 < totalBatchesOf n bs := totalBatchesOf_pos n bs hb hn
    have hbq : (0 : ℚ) < (bs : ℚ) := by exact_mod_cast hb
    rw [Nat.ceil_eq_iff (by omega)]
    constructor
    · rw [lt_div_iff₀ hbq]
      have h := mul_pred_totalBatchesOf_lt n bs hb hn
      rw [Nat.mul_comm] at h
      exact_mod_cast h
    · rw [div_le_iff₀ hbq]
      exact_mod_cast le_totalBatchesOf_mul n bs hb

/-! ### Extension validation (src/utils.rs) -/

theorem extAfterDot_none_no_dot :
    ∀ cs : List Char, extAfterDot cs = none → '.' ∉ cs := by
  intro cs
  induction cs with
  | nil => intro _ h; cases h
  | cons c cs ih =>
    intro h hmem
    rw [List.mem_cons] at hmem
    simp only [extAfterDot] at h
    cases hrec : extAfterDot cs with
    | some e => simp [hrec] at h
    | none =>
      simp only [hrec] at h
      rcases hmem with h1 | h1
      · rw [← h1] at h; simp at h
      · exact ih hrec h1

theorem extAfterDot_no_dot :
    ∀ cs e : List Char, extAfterDot cs = some e → '.' ∉ e := by
  intro cs
  induction cs with
  | nil => intro e h; cases h
  | cons c cs ih =>
    intro e h
    simp only [extAfterDot] at h
    cases hrec : extAfterDot cs with
    | some e2 =>
      rw [hrec] at h
      cases h
      exact ih e hrec
    | none =>
      rw [hrec] at h
      by_cases hc : c = '.'
      · rw [if_pos hc] at h
        cases h
        exact extAfterDot_none_no_dot cs hrec
      · rw [if_neg hc] at h
        cases h

theorem extAfterDot_append (xs ys : List Char) :
    extAfterDot (xs ++ ys) =
      match extAfterDot ys with
      | some e => some e
      | none => (extAfterDot xs).map (fun l => l ++ ys) := by
  induction xs with
  | nil =>
    rw [List.nil_append]
    cases h : extAfterDot ys <;> simp [extAfterDot, h]
  | cons c xs ih =>
    rw [List.cons_append]
    simp only [extAfterDot, ih]
    cases h : extAfterDot ys with
    | some e => rfl
    | none =>
      cases h2 : extAfterDot xs with
      | some e2 => rfl
      | none =>
        by_cases hc : c = '.' <;> simp [hc]

theorem pathExtension_no_dot (name ext : String)
    (h : pathExtension name = some ext) : '.' ∉ ext.data := by
  unfold pathExtension at h
  cases hn : name.toList with
  | nil => rw [hn] at h; cases h
  | cons c cs =>
    rw [hn] at h
    rcases Option.map_eq_some'.1 h with ⟨e, he, hme⟩
    subst hme
    exact extAfterDot_no_dot cs e he

/-- C10: `validate_extension` returns true exactly when the path's
extension component is the literal "parquet"; the comparison against
".pqt" can never match, because an extension component never contains a
dot, so every file name ending in ".pqt" is rejected even though the
rejection diagnostic says ".parquet or .pqt only". -/
theorem c10_validate_extension (name stem : String) :
    (validate_extension name = true ↔ pathExtension name = some "parquet") ∧
    validate_extension (stem ++ ".pqt") = false := by
  constructor
  · constructor
    · intro h
      unfold validate_extension at h
      cases hpe : pathExtension name with
      | none => rw [hpe] at h; cases h
      | some ext =>
        rw [hpe] at h
        have h3 : (ext == "parquet" || ext == ".pqt") = true := h
        rcases (by simpa using h3 :
            ext = "parquet" ∨ ext = ".pqt") with h1 | h1
        · rw [h1]
        · exfalso
          have hd := pathExtension_no_dot name ext hpe
          rw [h1] at hd
          exact hd (by decide)
    · intro h
      unfold validate_extension
      rw [h]
      decide
  · unfold validate_extension pathExtension
    have hl : (stem ++ ".pqt").toList = stem.data ++ ['.', 'p', 'q', 't'] := by
      show (stem ++ ".pqt").data = stem.data ++ ['.', 'p', 'q', 't']
      rw [String.data_append]
    rw [hl]
    cases hs : stem.data with
    | nil => decide
    | cons c cs =>
      rw [List.cons_append]
      have hap := extAfterDot_append cs ['.', 'p', 'q', 't']
      have hy : extAfterDot ['.', 'p', 'q', 't'] = some ['p', 'q', 't'] := by
        decide
      rw [hy] at hap
      simp only [hap]
      decide

/-! ### Behavior of the individual session operations -/

theorem load_original_data_fields (s s2 : App)
    (h : s.load_original_data = .ok s2) :
    s2.src = s.src ∧ s2.batch_size = s.batch_size ∧
    s2.is_filtered = false ∧ s2.current_batch_idx = 0 ∧
    s2.total_batches = totalBatchesOf s.src.rows.length s.batch_size ∧
    s2.total_rows = s.src.rows.length ∧
    s2.col_offset = 0 ∧ s2.selected_row = 0 ∧
    s2.execution_state = .idle ∧ s2.header = s.src.header ∧
    s2.current_rows = batchRows s.src.rows s.batch_size 0 ∧
    s2.sql_text = DEFAULT_SQL := by
  unfold App.load_original_data at h
  cases hr : s.src.rows with
  | nil => rw [hr] at h; cases h
  | cons a l =>
    rw [hr] at h
    cases h
    exact ⟨rfl, rfl, rfl, rfl, rfl, rfl, rfl, rfl, rfl, rfl, rfl, rfl⟩

theorem load_original_data_ok_of_ne (s : App) (h : s.src.rows ≠ []) :
    ∃ s2, s.load_original_data = .ok s2 := by
  unfold App.load_original_data
  cases hr : s.src.rows with
  | nil => exact absurd hr h
  | cons a l => exact ⟨_, rfl⟩

theorem update_with_results_fields (s : App) (b : RecordBatch)
    (batches : List RecordBatch) :
    (s.update_with_results (b :: batches)).src = s.src ∧
    (s.update_with_results (b :: batches)).batch_size = s.batch_size ∧
    (s.update_with_results (b :: batches)).is_filtered = true ∧
    (s.update_with_results (b :: batches)).total_batches = 1 ∧
    (s.update_with_results (b :: batches)).current_batch_idx = 0 ∧
    (s.update_with_results (b :: batches)).col_offset = 0 ∧
    (s.update_with_results (b :: batches)).selected_row = 0 ∧
    (s.update_with_results (b :: batches)).header = b.header ∧
    (s.update_with_results (b :: batches)).current_rows =
      ((b :: batches).map RecordBatch.rows).flatten := by
  exact ⟨rfl, rfl, rfl, rfl, rfl, rfl, rfl, rfl, rfl⟩

theorem load_batch_cases (s : App) (i : Nat) :
    (s.is_filtered = true → s.load_batch i = s) ∧
    (s.is_filtered = false → s.batch_size * i < s.src.rows.length →
      s.load_batch i =
        { s with
          current_rows := batchRows s.src.rows s.batch_size i
          current_batch_idx := i
          selected_row := 0 }) ∧
    (s.is_filtered = false → ¬ s.batch_size * i < s.src.rows.length →
      s.load_batch i = s) := by
  refine ⟨fun hf => ?_, fun hf hlt => ?_, fun hf hlt => ?_⟩
  · simp [App.load_batch, hf]
  · simp [App.load_batch, hf, hlt]
  · simp [App.load_batch, hf, hlt]

theorem execute_sql_empty (s : App) (res : EngineResult)
    (hsql : trimChars s.sql_text.data = []) :
    s.execute_sql res = { s with execution_state := .error "SQL query is empty" } := by
  simp [App.execute_sql, hsql]

theorem execute_sql_parse_error (s : App) (e : String)
    (hsql : trimChars s.sql_text.data ≠ []) :
    s.execute_sql (.parseError e) =
      { s with execution_state := .error ("SQL: " ++ e) } := by
  simp [App.execute_sql, hsql]

theorem execute_sql_exec_error (s : App) (e : String)
    (hsql : trimChars s.sql_text.data ≠ []) :
    s.execute_sql (.execError e) =
      { s with execution_state := .error ("Execution: " ++ e) } := by
  simp [App.execute_sql, hsql]

theorem execute_sql_ok_nonempty (s : App) (b : RecordBatch)
    (batches : List RecordBatch) (hsql : trimChars s.sql_text.data ≠ []) :
    s.execute_sql (.ok (b :: batches)) =
      { s.update_with_results (b :: batches) with execution_state := .success } := by
  simp [App.execute_sql, hsql]

theorem execute_sql_ok_empty (s : App) (hsql : trimChars s.sql_text.data ≠ [])
    (hne : s.src.rows ≠ []) :
    ∃ s2, ({ s with execution_state := .error "Query returned no results" } :
        App).load_original_data = .ok s2 ∧ s.execute_sql (.ok []) = s2 := by
  obtain ⟨s2, h2⟩ :=
    load_original_data_ok_of_ne
      { s with execution_state := .error "Query returned no results" } hne
  refine ⟨s2, h2, ?_⟩
  simp [App.execute_sql, hsql, h2]

/-! ### The session invariant and its preservation -/

theorem inv_new (src : Source) (bs : Nat) (s : App)
    (hb : 1 ≤ bs) (h : App.new src bs = .ok s) : s.Inv := by
  unfold App.new at h
  cases hr : src.rows with
  | nil => rw [hr] at h; cases h
  | cons a l =>
    rw [hr] at h
    cases h
    refine ⟨?_, hb, ?_, ?_⟩
    · show src.rows ≠ []
      rw [hr]
      exact List.cons_ne_nil a l
    · intro hft
      exact Bool.noConfusion (hft : false = true)
    · intro _
      refine ⟨?_, ?_, ?_⟩
      · show totalBatchesOf (a :: l).length bs =
          totalBatchesOf src.rows.length bs
        rw [hr]
      · show (a :: l).length = src.rows.length
        rw [hr]
      · show 0 < totalBatchesOf (a :: l).length bs
        exact totalBatchesOf_pos _ _ hb (by simp)

theorem inv_load_batch (s : App) (i : Nat) (h : s.Inv) :
    (s.load_batch i).Inv := by
  obtain ⟨h1, h2, h3, h4⟩ := h
  cases hf : s.is_filtered with
  | true => rw [(load_batch_cases s i).1 hf]; exact ⟨h1, h2, h3, h4⟩
  | false =>
    by_cases hlt : s.batch_size * i < s.src.rows.length
    · rw [(load_batch_cases s i).2.1 hf hlt]
      refine ⟨h1, h2, ?_, ?_⟩
      · intro hft
        have hft' : s.is_filtered = true := hft
        rw [hf] at hft'
        exact Bool.noConfusion hft'
      · intro _
        refine ⟨(h4 hf).1, (h4 hf).2.1, ?_⟩
        show i < s.total_batches
        rw [(h4 hf).1]
        apply Nat.lt_of_mul_lt_mul_left (a := s.batch_size)
        calc s.batch_size * i < s.src.rows.length := hlt
          _ ≤ totalBatchesOf s.src.rows.length s.batch_size * s.batch_size :=
            le_totalBatchesOf_mul _ _ h2
          _ = s.batch_size * totalBatchesOf s.src.rows.length s.batch_size :=
            Nat.mul_comm _ _
    · rw [(load_batch_cases s i).2.2 hf hlt]; exact ⟨h1, h2, h3, h4⟩

theorem inv_of_load_original_data (s s2 : App) (h : s.Inv)
    (hld : s.load_original_data = .ok s2) : s2.Inv := by
  obtain ⟨h1, h2, _, _⟩ := h
  obtain ⟨hsrc, hbs, hfil, hidx, htb, htr, _, _, _, _, _, _⟩ :=
    load_original_data_fields s s2 hld
  refine ⟨?_, ?_, ?_, ?_⟩
  · rw [hsrc]; exact h1
  · rw [hbs]; exact h2
  · intro hft; rw [hfil] at hft; exact Bool.noConfusion hft
  · intro _
    refine ⟨?_, ?_, ?_⟩
    · rw [htb, hsrc, hbs]
    · rw [htr, hsrc]
    · rw [hidx, htb]
      exact totalBatchesOf_pos _ _ h2 (List.length_pos.2 h1)

theorem inv_execute_sql (s : App) (res : EngineResult) (h : s.Inv) :
    (s.execute_sql res).Inv := by
  obtain ⟨h1, h2, h3, h4⟩ := h
  by_cases hsql : trimChars s.sql_text.data = []
  case pos => rw [execute_sql_empty s res hsql]; exact ⟨h1, h2, h3, h4⟩
  case neg =>
    cases res with
    | parseError e =>
      rw [execute_sql_parse_error s e hsql]; exact ⟨h1, h2, h3, h4⟩
    | execError e =>
      rw [execute_sql_exec_error s e hsql]; exact ⟨h1, h2, h3, h4⟩
    | ok batches =>
      cases batches with
      | nil =>
        obtain ⟨s2, hld, heq⟩ := execute_sql_ok_empty s hsql h1
        rw [heq]
        exact inv_of_load_original_data _ s2 ⟨h1, h2, h3, h4⟩ hld
      | cons b bs' =>
        rw [execute_sql_ok_nonempty s b bs' hsql]
        have hu := update_with_results_fields s b bs'
        refine ⟨?_, ?_, ?_, ?_⟩
        · show (s.update_with_results (b :: bs')).src.rows ≠ []
          rw [hu.1]; exact h1
        · show 1 ≤ (s.update_with_results (b :: bs')).batch_size
          rw [hu.2.1]; exact h2
        · intro _
          exact ⟨hu.2.2.2.1, hu.2.2.2.2.1⟩
        · intro hff
          have hff' : (s.update_with_results (b :: bs')).is_filtered = false :=
            hff
          rw [hu.2.2.1] at hff'
          exact Bool.noConfusion hff'

theorem inv_step (s : App) (c : Cmd) (h : s.Inv) : (s.step c).Inv := by
  obtain ⟨h1, h2, h3, h4⟩ := h
  cases c with
  | exec res =>
    exact inv_execute_sql { s with execution_state := .executing } res
      ⟨h1, h2, h3, h4⟩
  | reset =>
    show App.Inv (match s.load_original_data with
      | .ok s2 => s2
      | .error e => { s with execution_state := .error ("Error resetting: " ++ e) })
    cases hld : s.load_original_data with
    | ok s2 => exact inv_of_load_original_data s s2 ⟨h1, h2, h3, h4⟩ hld
    | error e => exact ⟨h1, h2, h3, h4⟩
  | nextBatch =>
    show (s.load_next_batch).Inv
    unfold App.load_next_batch
    by_cases hg : s.current_batch_idx + 1 < s.total_batches
    · rw [if_pos hg]; exact inv_load_batch s _ ⟨h1, h2, h3, h4⟩
    · rw [if_neg hg]; exact ⟨h1, h2, h3, h4⟩
  | prevBatch =>
    show (s.load_previous_batch).Inv
    unfold App.load_previous_batch
    by_cases hg : s.current_batch_idx > 0
    · rw [if_pos hg]; exact inv_load_batch s _ ⟨h1, h2, h3, h4⟩
    · rw [if_neg hg]; exact ⟨h1, h2, h3, h4⟩
  | gotoBatch i => exact inv_load_batch s i ⟨h1, h2, h3, h4⟩
  | scrollLeft =>
    show (s.scroll_left).Inv
    unfold App.scroll_left
    split <;> exact ⟨h1, h2, h3, h4⟩
  | scrollRight =>
    show (s.scroll_right).Inv
    unfold App.scroll_right
    split
    · exact ⟨h1, h2, h3, h4⟩
    · split <;> exact ⟨h1, h2, h3, h4⟩

theorem inv_steps (s : App) (cs : List Cmd) (h : s.Inv) :
    (s.steps cs).Inv := by
  induction cs generalizing s with
  | nil => exact h
  | cons c cs ih => exact ih _ (inv_step s c h)

/-! ### Claim theorems -/

/-- C9: for every `batch_size ≥ 1` and `total_rows ≥ 0`, the batch count
computed at open time (`(total_rows + batch_size - 1) / batch_size`, the
`total_batches` of `App::new`) equals the ceiling of
`total_rows / batch_size`; in particular `batch_size = 2` with
`total_rows = 5` gives `total_batches = 3`. -/
theorem c9_total_batches_ceil (total_rows batch_size : Nat)
    (hb : 1 ≤ batch_size) :
    totalBatchesOf total_rows batch_size =
      ⌈(total_rows : ℚ) / (batch_size : ℚ)⌉₊ ∧
    totalBatchesOf 5 2 = 3 ∧
    (∀ src s, App.new src batch_size = .ok s →
      s.total_batches = totalBatchesOf s.total_rows batch_size) := by
  refine ⟨totalBatchesOf_eq_ceil _ _ hb, by decide, ?_⟩
  intro src s h
  unfold App.new at h
  cases hr : src.rows with
  | nil => rw [hr] at h; cases h
  | cons a l => rw [hr] at h; cases h; rfl

/-- Witness for C9 at `total_rows = 5`, `batch_size = 2`. -/
theorem c9_witness :
    (1 ≤ 2) ∧ totalBatchesOf 5 2 = ⌈(5 : ℚ) / (2 : ℚ)⌉₊ ∧
    totalBatchesOf 5 2 = 3 :=
  ⟨by decide, (c9_total_batches_ceil 5 2 (by decide)).1,
   (c9_total_batches_ceil 5 2 (by decide)).2.1⟩

/-- C3 counterexample: a parquet file with zero rows opens and decodes
successfully (the decoded source is `.ok`), yet `open` still fails — with
"No data in file", which is neither an open nor a decode failure — so
`open` does not fail exactly when the file cannot be opened or decoded. -/
theorem c3_counterexample :
    openApp (.ok ⟨["a"], []⟩) 100 = .error "No data in file" := by rfl

/-- C3 (amended): `open(source, batch_size)` fails when the file cannot be
opened or decoded (propagating that error) or when the decoded file holds
zero rows ("No data in file"); for every file that opens and decodes
successfully and holds at least one row, `open` succeeds with the cursor
at batch 0 showing the raw first batch. -/
theorem c3_amended (src : Source) (bs : Nat) (e : String)
    (_hb : 1 ≤ bs) (hne : src.rows ≠ []) :
    openApp (.error e) bs = .error e ∧
    ∃ s, openApp (.ok src) bs = .ok s ∧ s.current_batch_idx = 0 ∧
      s.is_filtered = false ∧ s.execution_state = .idle ∧
      s.current_rows = batchRows src.rows bs 0 := by
  refine ⟨rfl, ?_⟩
  have hoa : openApp (.ok src) bs = App.new src bs := rfl
  rw [hoa]
  unfold App.new
  cases hr : src.rows with
  | nil => exact absurd hr hne
  | cons a l => exact ⟨_, rfl, rfl, rfl, rfl, rfl⟩

/-- Witness for C3 (amended) on the 5-row fixture with batch size 2. -/
theorem c3_witness :
    (1 ≤ 2) ∧ srcA.rows ≠ [] ∧ openApp (.error "io") 2 = .error "io" :=
  ⟨by decide, by decide, (c3_amended srcA 2 "io" (by decide) (by decide)).1⟩

/-- C4: when the literal query text contains no "LIMIT" (case-insensitive)
and, after leading whitespace, begins with "SELECT", `execute_sql` invokes
the engine with ` LIMIT 1000` (`MAX_PREVIEW_ROWS`) appended; consequently
the unbounded `SELECT * FROM data` materializes at most
`MAX_PREVIEW_ROWS` rows on every source, however large. -/
theorem c4_preview_cap (sql : List Char)
    (h1 : hasSub "LIMIT".toList (toUpperChars sql) = false)
    (h2 : "SELECT".toList.isPrefixOf (trimStartChars (toUpperChars sql)) =
      true) :
    sql_with_limit sql = sql ++ " LIMIT 1000".toList ∧
    ∀ src : Source,
      engine_exec src (sql_with_limit "SELECT * FROM data".toList) =
        some (src.rows.take MAX_PREVIEW_ROWS) ∧
      (src.rows.take MAX_PREVIEW_ROWS).length ≤ MAX_PREVIEW_ROWS := by
  constructor
  · unfold sql_with_limit
    rw [if_pos ⟨by rw [h1]; simp, h2⟩]
    exact congrArg (fun t => sql ++ t) (by decide)
  · intro src
    refine ⟨rfl, ?_⟩
    rw [List.length_take]
    exact min_le_left _ _

/-- Witness for C4 on the unbounded query `SELECT * FROM data`. -/
theorem c4_witness :
    hasSub "LIMIT".toList (toUpperChars "SELECT * FROM data".toList) =
      false ∧
    "SELECT".toList.isPrefixOf
      (trimStartChars (toUpperChars "SELECT * FROM data".toList)) = true ∧
    sql_with_limit "SELECT * FROM data".toList =
      "SELECT * FROM data LIMIT 1000".toList ∧
    engine_exec srcA (sql_with_limit "SELECT * FROM data".toList) =
      some (srcA.rows.take MAX_PREVIEW_ROWS) := by
  refine ⟨by decide, by decide, ?_, ?_⟩
  · exact (c4_preview_cap "SELECT * FROM data".toList (by decide)
      (by decide)).1
  · exact ((c4_preview_cap "SELECT * FROM data".toList (by decide)
      (by decide)).2 srcA).1

theorem step_exec_error_cases (s : App) (res : EngineResult) (m : String)
    (hres : res = .parseError m ∨ res = .execError m) :
    ∃ msg, s.step (.exec res) = { s with execution_state := .error msg } := by
  by_cases hsql : trimChars s.sql_text.data = []
  · exact ⟨"SQL query is empty",
      execute_sql_empty { s with execution_state := .executing } res hsql⟩
  · rcases hres with h | h <;> subst h
    · exact ⟨"SQL: " ++ m,
        execute_sql_parse_error { s with execution_state := .executing } m hsql⟩
    · exact ⟨"Execution: " ++ m,
        execute_sql_exec_error { s with execution_state := .executing } m hsql⟩

/-- C5: when parsing or execution fails, the `execute` command sets the
status to `Error(message)` and leaves the displayed view untouched: rows,
header, batch index, overlay flag, viewport and totals are unchanged. -/
theorem c5_failure_leaves_view (s : App) (m : String) (res : EngineResult)
    (hres : res = .parseError m ∨ res = .execError m) :
    (s.step (.exec res)).current_rows = s.current_rows ∧
    (s.step (.exec res)).header = s.header ∧
    (s.step (.exec res)).current_batch_idx = s.current_batch_idx ∧
    (s.step (.exec res)).is_filtered = s.is_filtered ∧
    (s.step (.exec res)).col_offset = s.col_offset ∧
    (s.step (.exec res)).selected_row = s.selected_row ∧
    (s.step (.exec res)).total_batches = s.total_batches ∧
    (s.step (.exec res)).total_rows = s.total_rows ∧
    (s.step (.exec res)).execution_state.isError = true := by
  obtain ⟨msg, hmsg⟩ := step_exec_error_cases s res m hres
  rw [hmsg]
  exact ⟨rfl, rfl, rfl, rfl, rfl, rfl, rfl, rfl, rfl⟩

/-- Witness for C5: a parse error on the batch-1 fixture state. -/
theorem c5_witness :
    (s1A.step (.exec (.parseError "boom"))).current_rows =
      s1A.current_rows ∧
    (s1A.step (.exec (.parseError "boom"))).current_batch_idx =
      s1A.current_batch_idx ∧
    (s1A.step (.exec (.parseError "boom"))).execution_state.isError =
      true := by
  have h := c5_failure_leaves_view s1A "boom" (.parseError "boom")
    (Or.inl rfl)
  exact ⟨h.1, h.2.2.1, h.2.2.2.2.2.2.2.2⟩

/-- C7: `save_results` called while `is_filtered = false` fails with the
no-overlay error (so nothing is written); called while
`is_filtered = true` it succeeds with a file whose row count equals the
overlay's row count, whose schema's field names are exactly the overlay
header, and in which every column is typed `Utf8` (text). -/
theorem c7_save_gate (s : App) :
    (s.is_filtered = false →
      s.save_results =
        .error "No SQL results to save. Execute a query first.") ∧
    (s.is_filtered = true → ∃ f, s.save_results = .ok f ∧
      f.rows.length = s.current_rows.length ∧
      f.fields.map Prod.fst = s.header ∧
      ∀ p ∈ f.fields, p.2 = ArrowType.utf8) := by
  constructor
  · intro hf
    unfold App.save_results
    rw [if_pos (by simp [hf])]
  · intro hf
    unfold App.save_results
    rw [if_neg (by simp [hf])]
    refine ⟨_, rfl, ?_, ?_, ?_⟩
    · simp
    · show List.map Prod.fst (s.header.map fun n => (n, ArrowType.utf8)) =
        s.header
      rw [List.map_map]
      exact List.map_id s.header
    · intro p hp
      obtain ⟨n, _, hpn⟩ := List.mem_map.1 hp
      rw [← hpn]

/-- Witness for C7: the raw fixture refuses to save, the overlay fixture
saves. -/
theorem c7_witness :
    s0A.is_filtered = false ∧
    s0A.save_results =
      .error "No SQL results to save. Execute a query first." ∧
    sFA.is_filtered = true ∧
    (sFA.save_results).toOption.isSome = true := by
  refine ⟨by decide, (c7_save_gate s0A).1 (by decide), by decide, ?_⟩
  obtain ⟨f, hf, -, -, -⟩ := (c7_save_gate sFA).2 (by decide)
  rw [hf]
  rfl

/-- C6: in every reachable session state where an overlay is present
(`is_filtered = true`), `total_batches` reports as 1 and the
batch-navigation commands (next, previous, direct batch load) are
no-ops: the session state — in particular the displayed rows and the
batch index — is unchanged. -/
theorem c6_overlay_inert (src : Source) (bs : Nat) (s0 s : App)
    (cs : List Cmd) (i : Nat) (hb : 1 ≤ bs)
    (h0 : App.new src bs = .ok s0) (hs : s = s0.steps cs)
    (hf : s.is_filtered = true) :
    s.total_batches = 1 ∧
    s.step .nextBatch = s ∧ s.step .prevBatch = s ∧
    s.step (.gotoBatch i) = s := by
  have hinv : s.Inv := hs ▸ inv_steps s0 cs (inv_new src bs s0 hb h0)
  obtain ⟨h1, h2, h3, h4⟩ := hinv
  obtain ⟨htb, hidx⟩ := h3 hf
  refine ⟨htb, ?_, ?_, ?_⟩
  · show s.load_next_batch = s
    unfold App.load_next_batch
    rw [if_neg (by rw [hidx, htb]; omega)]
  · show s.load_previous_batch = s
    unfold App.load_previous_batch
    rw [if_neg (by rw [hidx]; omega)]
  · exact (load_batch_cases s i).1 hf

/-- Witness for C6 on a reachable overlay state. -/
theorem c6_witness :
    (1 ≤ 2) ∧ App.new srcA 2 = .ok s0A ∧ sFA.is_filtered = true ∧
    sFA.total_batches = 1 ∧ sFA.step .nextBatch = sFA := by
  have h := c6_overlay_inert srcA 2 s0A sFA [.exec (.ok [rbA])] 5
    (by decide) (by rfl) rfl (by decide)
  exact ⟨by decide, by rfl, by decide, h.1, h.2.1⟩

/-- C8: in every reachable raw-view state, `next()` at the last batch
(`batch_index = total_batches - 1`) and `previous()` at batch 0 are
silent no-ops — no state change, no error — and
`goto_batch(total_batches - 1)` followed by `next()` changes nothing. -/
theorem c8_boundary_noop (src : Source) (bs : Nat) (s0 s : App)
    (cs : List Cmd) (hb : 1 ≤ bs) (h0 : App.new src bs = .ok s0)
    (hs : s = s0.steps cs) (hraw : s.is_filtered = false) :
    (s.current_batch_idx = s.total_batches - 1 → s.step .nextBatch = s) ∧
    (s.current_batch_idx = 0 → s.step .prevBatch = s) ∧
    (s.step (.gotoBatch (s.total_batches - 1))).step .nextBatch =
      s.step (.gotoBatch (s.total_batches - 1)) := by
  have hinv : s.Inv := hs ▸ inv_steps s0 cs (inv_new src bs s0 hb h0)
  obtain ⟨h1, h2, h3, h4⟩ := hinv
  obtain ⟨htb, htr, hlt⟩ := h4 hraw
  have htb1 : 1 ≤ s.total_batches := Nat.lt_of_le_of_lt (Nat.zero_le _) hlt
  refine ⟨?_, ?_, ?_⟩
  · intro hidx
    show s.load_next_batch = s
    unfold App.load_next_batch
    rw [if_neg (by omega)]
  · intro hidx
    show s.load_previous_batch = s
    unfold App.load_previous_batch
    rw [if_neg (by omega)]
  · have hin : s.batch_size * (s.total_batches - 1) < s.src.rows.length := by
      rw [htb]
      exact mul_pred_totalBatchesOf_lt s.src.rows.length s.batch_size h2
        (List.length_pos.2 h1)
    have hgoto := (load_batch_cases s (s.total_batches - 1)).2.1 hraw hin
    have hg : s.step (.gotoBatch (s.total_batches - 1)) =
        s.load_batch (s.total_batches - 1) := rfl
    rw [hg, hgoto]
    show App.load_next_batch _ = _
    unfold App.load_next_batch
    rw [if_neg (by show ¬(s.total_batches - 1 + 1 < s.total_batches); omega)]

/-- Witness for C8 at the last batch (index 2) and at batch 0 of the
5-row, batch-size-2 fixture. -/
theorem c8_witness :
    s2A.is_filtered = false ∧
    s2A.current_batch_idx = s2A.total_batches - 1 ∧
    s2A.step .nextBatch = s2A ∧
    s0A.current_batch_idx = 0 ∧
    s0A.step .prevBatch = s0A := by
  have h2 := c8_boundary_noop srcA 2 s0A s2A [.nextBatch, .nextBatch]
    (by decide) (by rfl) rfl (by decide)
  have h0 := c8_boundary_noop srcA 2 s0A s0A [] (by decide) (by rfl) rfl
    (by decide)
  exact ⟨by decide, by decide, h2.1 (by decide), by decide,
    h0.2.1 (by decide)⟩

/-- C1 counterexample: from the raw view at batch 1, a query that
succeeds with zero result rows does not leave the previously displayed
view unchanged — the session reloads the original first batch, so the
batch index falls back to 0 and the displayed rows change; moreover the
final status is `Idle`, so no "no results" notice remains. -/
theorem c1_counterexample :
    s1A.current_batch_idx = 1 ∧
    (s1A.step (.exec (.ok []))).current_batch_idx = 0 ∧
    (s1A.step (.exec (.ok []))).current_rows ≠ s1A.current_rows ∧
    (s1A.step (.exec (.ok []))).execution_state = .idle := by decide

/-- C1 (amended): a query succeeding with zero rows installs no overlay,
but instead of leaving the prior view byte-for-byte unchanged it reloads
the original raw data at batch 0 (original header and first batch) and
resets the SQL editor text; the transient "no results" error status is
immediately overwritten by the reload, so the final status is `Idle` —
not `Success` and not an `Error`, but also not a "no results" notice.
The prior view is preserved only when it already was the raw first
batch. -/
theorem c1_amended (s : App) (hsql : trimChars s.sql_text.data ≠ [])
    (hne : s.src.rows ≠ []) :
    (s.step (.exec (.ok []))).is_filtered = false ∧
    (s.step (.exec (.ok []))).current_batch_idx = 0 ∧
    (s.step (.exec (.ok []))).header = s.src.header ∧
    (s.step (.exec (.ok []))).current_rows =
      batchRows s.src.rows s.batch_size 0 ∧
    (s.step (.exec (.ok []))).execution_state = .idle ∧
    (s.step (.exec (.ok []))).sql_text = DEFAULT_SQL := by
  obtain ⟨s2, hld, heq⟩ :=
    execute_sql_ok_empty { s with execution_state := .executing } hsql hne
  have hstep : s.step (.exec (.ok [])) = s2 := heq
  obtain ⟨hsrc, hbs, hfil, hidx, htb, htr, hcol, hsel, hex, hhd, hcr, hsq⟩ :=
    load_original_data_fields _ s2 hld
  rw [hstep]
  exact ⟨hfil, hidx, hhd, hcr, hex, hsq⟩

/-- Witness for C1 (amended) on the batch-1 fixture state. -/
theorem c1_witness :
    trimChars s1A.sql_text.data ≠ [] ∧ s1A.src.rows ≠ [] ∧
    (s1A.step (.exec (.ok []))).is_filtered = false ∧
    (s1A.step (.exec (.ok []))).current_batch_idx = 0 := by
  have h := c1_amended s1A (by decide) (by decide)
  exact ⟨by decide, by decide, h.1, h.2.1⟩

/-- C2 counterexample: in the raw view with the viewport scrolled one
column right, paging to the next batch changes the active row set but
leaves `column_offset` at 1 instead of forcing it back to its initial
value 0. -/
theorem c2_counterexample :
    (s0W.steps [.scrollRight]).col_offset = 1 ∧
    (s0W.steps [.scrollRight, .nextBatch]).current_batch_idx = 1 ∧
    (s0W.steps [.scrollRight, .nextBatch]).col_offset = 1 := by decide

/-- C2 (amended): the viewport fully resets — `column_offset` to 0 and
`selected_row` to the first row — when an overlay is installed
(`update_with_results`) and when the overlay is cleared and the raw view
restored (`load_original_data`); on a raw batch switch (`load_batch`)
only `selected_row` is forced back to the first row, while
`column_offset` is always left unchanged. -/
theorem c2_amended (s s2 : App) (b : RecordBatch)
    (batches : List RecordBatch) (i : Nat)
    (hld : s.load_original_data = .ok s2) :
    (s.update_with_results (b :: batches)).col_offset = 0 ∧
    (s.update_with_results (b :: batches)).selected_row = 0 ∧
    s2.col_offset = 0 ∧ s2.selected_row = 0 ∧
    (s.is_filtered = false → s.batch_size * i < s.src.rows.length →
      (s.load_batch i).selected_row = 0) ∧
    (s.load_batch i).col_offset = s.col_offset := by
  obtain ⟨-, -, -, -, -, -, hcol, hsel, -, -, -, -⟩ :=
    load_original_data_fields s s2 hld
  refine ⟨rfl, rfl, hcol, hsel, ?_, ?_⟩
  · intro hf hin
    rw [(load_batch_cases s i).2.1 hf hin]
  · unfold App.load_batch
    split
    · rfl
    · split <;> rfl

/-- Witness for C10 at concrete file names. -/
theorem c10_witness :
    validate_extension "data.parquet" = true ∧
    pathExtension "data.parquet" = some "parquet" ∧
    validate_extension ("data" ++ ".pqt") = false := by
  have h := c10_validate_extension "data.parquet" "data"
  exact ⟨h.1.mpr (by decide), by decide, h.2⟩

/-- Witness for C2 (amended) on the batch-1 fixture state. -/
theorem c2_witness :
    s1A.load_original_data = .ok s1AReset ∧
    (s1A.update_with_results [rbA]).col_offset = 0 ∧
    s1AReset.col_offset = 0 ∧
    (s1A.load_batch 0).col_offset = s1A.col_offset := by
  have h := c2_amended s1A s1AReset rbA [] 0 (by rfl)
  exact ⟨by rfl, h.1, h.2.2.1, h.2.2.2.2.2⟩

end PqPeak
